import Mathlib

/-!
Shallow embedding of the capacity-safe reservation engine of
`mvp_gerenciador_de_eventos` (backend controllers + Prisma schema).

Sources embedded:
* `backend/src/controllers/reservationController.ts` (`createReservation`,
  `cancelReservation`): the reserve / cancel transactions and their
  cache-invalidation epilogue.
* `backend/src/controllers/eventController.ts` (`createEvent`, `updateEvent`).
* `backend/prisma/schema.prisma`: the data model, including the database
  uniqueness constraint `@@unique([eventId, userId, status])` on reservations,
  which PostgreSQL enforces on every INSERT/UPDATE inside the transaction.
* `backend/src/validation/schemas.ts` (`createEventSchema`, `updateEventSchema`):
  the Zod validation that gates the controllers.

Numbers (`maxCapacity`, `availableSpots`) are JavaScript numbers holding
integers; they are embedded as `Int`.  Timestamps are embedded as `Int`
instants (`eventDate < new Date()` becomes `eventDate < now`).  Ids are
embedded as `Nat`, allocated from a monotone counter, mirroring the store's
generated unique ids.  Fallible transactions return `Except`; a thrown error
aborts (rolls back) the Prisma `$transaction`, so the controller-level
functions return the unchanged database in every error branch.
-/

namespace Mvp

inductive Role where
  | USER
  | ADMIN
deriving DecidableEq, Repr

inductive ReservationStatus where
  | CONFIRMED
  | CANCELED
deriving DecidableEq, Repr

/-- Model `Event` of `schema.prisma`: venue fields are nullable strings. -/
structure Event where
  id : Nat
  name : String
  description : Option String
  eventDate : Int
  location : Option String
  onlineLink : Option String
  maxCapacity : Int
  availableSpots : Int
  creatorId : Nat
deriving DecidableEq, Repr

/-- Model `Reservation` of `schema.prisma`. -/
structure Reservation where
  id : Nat
  eventId : Nat
  userId : Nat
  status : ReservationStatus
deriving DecidableEq, Repr

/-- The durable store: the `events` and `reservations` relations plus the
id-generation counter for freshly inserted rows. -/
structure DB where
  events : List Event
  reservations : List Reservation
  nextId : Nat
deriving DecidableEq, Repr

def DB.empty : DB := ⟨[], [], 0⟩

/-- `tx.event.findUnique({ where: { id } })`. -/
def findEvent (db : DB) (eventId : Nat) : Option Event :=
  db.events.find? (fun e => e.id == eventId)

/-- `tx.reservation.findUnique({ where: { id } })`. -/
def findReservation (db : DB) (reservationId : Nat) : Option Reservation :=
  db.reservations.find? (fun r => r.id == reservationId)

/-- The row filter `{ eventId, userId, status }` used both by the
`findFirst` duplicate check and by the database uniqueness constraint
`@@unique([eventId, userId, status])`. -/
def resMatches (eventId userId : Nat) (st : ReservationStatus) (r : Reservation) : Bool :=
  r.eventId == eventId && r.userId == userId && decide (r.status = st)

/-- `tx.reservation.findFirst({ where: { eventId, userId, status: CONFIRMED } })`. -/
def findConfirmed (db : DB) (eventId userId : Nat) : Option Reservation :=
  db.reservations.find? (resMatches eventId userId ReservationStatus.CONFIRMED)

/-- Whether inserting a row `(eventId, userId, st)` violates the database
constraint `@@unique([eventId, userId, status])`. -/
def hasTriple (rs : List Reservation) (eventId userId : Nat) (st : ReservationStatus) : Bool :=
  rs.any (resMatches eventId userId st)

/-- Whether flipping row `reservationId` of the pair `(eventId, userId)` to
`CANCELED` collides with ANOTHER row under `@@unique([eventId, userId, status])`. -/
def cancelConflict (rs : List Reservation) (reservationId eventId userId : Nat) : Bool :=
  rs.any (fun x => !(x.id == reservationId) && resMatches eventId userId ReservationStatus.CANCELED x)

/-- The typed failure conditions raised inside the controllers (the source
throws `Error` values with Portuguese messages; PostgreSQL/Prisma raise the
constraint and missing-record errors). -/
inductive ApiError where
  | EventNotFound
  | EventAlreadyOccurred
  | CapacityExhausted
  | AlreadyReserved
  | ReservationNotFound
  | NotAuthorized
  | AlreadyCanceled
  | UniqueConstraintViolation
  | RecordNotFound
deriving DecidableEq, Repr

/-- The `$transaction` body of `createReservation`
(`reservationController.ts`, lines 34-88), checks in source order:
event lookup, past-event check, capacity check (`availableSpots <= 0`),
duplicate-`CONFIRMED` check, then the relative decrement
(`availableSpots: { decrement: 1 }`) and the row insertion (which PostgreSQL
checks against `@@unique([eventId, userId, status])`). -/
def createReservationTx (db : DB) (eventId userId : Nat) (now : Int) :
    Except ApiError (DB × Reservation) :=
  match findEvent db eventId with
  | none => .error .EventNotFound
  | some event =>
    if event.eventDate < now then .error .EventAlreadyOccurred
    else if event.availableSpots ≤ 0 then .error .CapacityExhausted
    else match findConfirmed db eventId userId with
      | some _ => .error .AlreadyReserved
      | none =>
        if hasTriple db.reservations eventId userId ReservationStatus.CONFIRMED then
          .error .UniqueConstraintViolation
        else
          .ok (⟨db.events.map fun e =>
                if e.id == eventId then { e with availableSpots := e.availableSpots - 1 }
                else e,
              db.reservations ++ [⟨db.nextId, eventId, userId, ReservationStatus.CONFIRMED⟩],
              db.nextId + 1⟩,
            ⟨db.nextId, eventId, userId, ReservationStatus.CONFIRMED⟩)

/-- The `$transaction` body of `cancelReservation`
(`reservationController.ts`, lines 120-160): reservation lookup,
authorization (a `USER` may only cancel their own reservation), the
already-canceled check, the status flip (checked by PostgreSQL against
`@@unique([eventId, userId, status])`), and the unconditional, unclamped
increment (`availableSpots: { increment: 1 }`) on the reservation's event
(`RecordNotFound` if that event row is gone). -/
def cancelReservationTx (db : DB) (reservationId requesterId : Nat) (requesterRole : Role) :
    Except ApiError (DB × Reservation) :=
  match findReservation db reservationId with
  | none => .error .ReservationNotFound
  | some r =>
    if requesterRole = Role.USER ∧ ¬ (r.userId = requesterId) then .error .NotAuthorized
    else if r.status = ReservationStatus.CANCELED then .error .AlreadyCanceled
    else if cancelConflict db.reservations reservationId r.eventId r.userId then
      .error .UniqueConstraintViolation
    else
      match findEvent db r.eventId with
      | none => .error .RecordNotFound
      | some _ =>
        .ok (⟨db.events.map fun e =>
              if e.id == r.eventId then { e with availableSpots := e.availableSpots + 1 }
              else e,
            db.reservations.map fun x =>
              if x.id == reservationId then { x with status := ReservationStatus.CANCELED }
              else x,
            db.nextId⟩,
          { r with status := ReservationStatus.CANCELED })

/-- An HTTP response of the reservation controllers: status code plus the
reservation carried by a success body (`201`/`200`), `none` otherwise. -/
structure HttpResponse where
  status : Nat
  reservationBody : Option Reservation
deriving DecidableEq, Repr

/-- `createReservation` controller: the `USER`-role gate, the transaction,
then `redisClient.del` on both cache keys.  All of it sits in one
`try`/`catch`: a cache-delete rejection AFTER the committed transaction is
caught by the same handler and answered with status 500 (the database keeps
the committed state).  `cacheDelOk` says whether the cache deletes succeed. -/
def createReservationCtrl (db : DB) (eventId userId : Nat) (role : Role) (now : Int)
    (cacheDelOk : Bool) : DB × HttpResponse :=
  if ¬ role = Role.USER then (db, ⟨403, none⟩)
  else
    match createReservationTx db eventId userId now with
    | .error _ => (db, ⟨500, none⟩)
    | .ok (db', r) =>
      if cacheDelOk then (db', ⟨201, some r⟩) else (db', ⟨500, none⟩)

/-- `cancelReservation` controller: the transaction, then the cache deletes,
with the same single `try`/`catch` behaviour as `createReservationCtrl`. -/
def cancelReservationCtrl (db : DB) (reservationId requesterId : Nat) (requesterRole : Role)
    (cacheDelOk : Bool) : DB × HttpResponse :=
  match cancelReservationTx db reservationId requesterId requesterRole with
  | .error _ => (db, ⟨500, none⟩)
  | .ok (db', r) =>
    if cacheDelOk then (db', ⟨200, some r⟩) else (db', ⟨500, none⟩)

/-- JavaScript `String.prototype.trim`: strip whitespace from both ends
(embedded structurally over the character list). -/
def jsTrim (s : String) : String :=
  ⟨((s.data.dropWhile Char.isWhitespace).reverse.dropWhile Char.isWhitespace).reverse⟩

/-- `isNonEmptyString` of `validation/schemas.ts`: a present string whose
trim is non-empty. -/
def isNonEmptyString : Option String → Bool
  | some s => decide (0 < (jsTrim s).length)
  | none => false

/-- Request body of `createEvent` after Zod parsing: `description`,
`location`, `onlineLink` collapse `null`/absent to `none` (the controller
stores `?? null`).  `eventDate` is an instant (the Zod datetime-format check
is outside the embedding). -/
structure CreateEventInput where
  name : String
  description : Option String
  eventDate : Int
  location : Option String
  onlineLink : Option String
  maxCapacity : Int
deriving DecidableEq, Repr

/-- `createEventSchema`: non-empty `name`, positive integer `maxCapacity`,
and exactly one of `location` / `onlineLink` non-empty after trimming. -/
def createEventValid (inp : CreateEventInput) : Bool :=
  decide (0 < inp.name.length) && decide (0 < inp.maxCapacity) &&
    (isNonEmptyString inp.location != isNonEmptyString inp.onlineLink)

/-- `createEvent` controller (`eventController.ts`, lines 18-61): Zod
validation, the `ADMIN` gate, then the insert with
`availableSpots: maxCapacity`.  Returns the created event on success. -/
def createEventCtrl (db : DB) (inp : CreateEventInput) (adminId : Nat) (role : Role) :
    DB × Option Event :=
  if ¬ createEventValid inp then (db, none)
  else if ¬ role = Role.ADMIN then (db, none)
  else
    (⟨db.events ++ [⟨db.nextId, inp.name, inp.description, inp.eventDate, inp.location,
          inp.onlineLink, inp.maxCapacity, inp.maxCapacity, adminId⟩],
        db.reservations, db.nextId + 1⟩,
      some ⟨db.nextId, inp.name, inp.description, inp.eventDate, inp.location,
        inp.onlineLink, inp.maxCapacity, inp.maxCapacity, adminId⟩)

/-- Request body of `updateEvent` after Zod parsing.  The outer `Option`
distinguishes an absent key (`undefined`) from a provided one; for the
nullable fields the inner `Option` distinguishes `null` from a string. -/
structure UpdateEventInput where
  name : Option String
  description : Option (Option String)
  eventDate : Option Int
  location : Option (Option String)
  onlineLink : Option (Option String)
  maxCapacity : Option Int
deriving DecidableEq, Repr

/-- `isNonEmptyString` applied to a possibly-absent nullable payload field. -/
def payloadNonEmpty : Option (Option String) → Bool
  | some v => isNonEmptyString v
  | none => false

/-- `updateEventSchema`: per-field checks plus the refinement that the
payload does not carry both a non-empty `location` and a non-empty
`onlineLink`. -/
def updateEventValid (inp : UpdateEventInput) : Bool :=
  inp.name.all (fun s => decide (0 < s.length)) &&
    inp.maxCapacity.all (fun c => decide (0 < c)) &&
    !(payloadNonEmpty inp.location && payloadNonEmpty inp.onlineLink)

/-- The `finalLocation` / `finalOnlineLink` computation of `updateEvent`: a
field provided in the payload replaces the stored one (blank strings and
`null` become `null`, other strings are trimmed); an absent field keeps the
stored value. -/
def finalVenueField (payload : Option (Option String)) (stored : Option String) :
    Option String :=
  match payload with
  | none => stored
  | some none => none
  | some (some s) => if jsTrim s = "" then none else some (jsTrim s)

/-- `hasFinalLocation` / `hasFinalOnlineLink`: the final value is neither
`null` nor the empty string. -/
def venuePresent : Option String → Bool
  | some s => !(s == "")
  | none => false

/-- The `newAvailableSpots` computation of `updateEvent`
(`eventController.ts`, lines 210-221): when `maxCapacity` is provided and
differs from the stored one, `Math.max(0, availableSpots + (maxCapacity -
existing.maxCapacity))`; when it is provided unchanged, the stored
`availableSpots`; when absent, no recomputation (`undefined`). -/
def newSpotsOf (existing : Event) (inp : UpdateEventInput) : Option Int :=
  match inp.maxCapacity with
  | some newMax =>
    if newMax ≠ existing.maxCapacity then
      some (max 0 (existing.availableSpots + (newMax - existing.maxCapacity)))
    else some existing.availableSpots
  | none => none

/-- The row written by `updateEvent`'s `prisma.event.update`: each provided
field replaces the stored one, absent fields are kept (`dataToUpdate`). -/
def updatedEvent (existing : Event) (inp : UpdateEventInput) : Event :=
  { existing with
      name := inp.name.getD existing.name
      description := inp.description.getD existing.description
      eventDate := inp.eventDate.getD existing.eventDate
      location := finalVenueField inp.location existing.location
      onlineLink := finalVenueField inp.onlineLink existing.onlineLink
      maxCapacity := inp.maxCapacity.getD existing.maxCapacity
      availableSpots := (newSpotsOf existing inp).getD existing.availableSpots }

/-- `updateEvent` controller (`eventController.ts`, lines 167-291): Zod
validation, the `ADMIN` gate, the event lookup, the final-venue XOR check,
the `availableSpots` recomputation and the absolute row update.  Returns the
updated event on success, `none` on any rejection. -/
def updateEventCtrl (db : DB) (eventId : Nat) (inp : UpdateEventInput) (role : Role) :
    DB × Option Event :=
  if ¬ updateEventValid inp then (db, none)
  else if ¬ role = Role.ADMIN then (db, none)
  else
    match findEvent db eventId with
    | none => (db, none)
    | some existing =>
      if ¬ venuePresent (finalVenueField inp.location existing.location) ∧
          ¬ venuePresent (finalVenueField inp.onlineLink existing.onlineLink) then (db, none)
      else if venuePresent (finalVenueField inp.location existing.location) ∧
          venuePresent (finalVenueField inp.onlineLink existing.onlineLink) then (db, none)
      else
        (⟨db.events.map (fun e => if e.id == eventId then updatedEvent existing inp else e),
            db.reservations, db.nextId⟩, some (updatedEvent existing inp))

/-- One committed core operation, as issued through the HTTP controllers
(`now` is the clock value the reserve transaction observes; the cache is
taken as healthy, which does not affect the committed state). -/
inductive Op where
  | reserve (eventId userId : Nat) (role : Role) (now : Int)
  | cancel (reservationId requesterId : Nat) (role : Role)
  | create (inp : CreateEventInput) (adminId : Nat) (role : Role)
  | update (eventId : Nat) (inp : UpdateEventInput) (role : Role)

/-- The committed database after one controller call (errors roll back). -/
def applyOp (db : DB) : Op → DB
  | .reserve eventId userId role now => (createReservationCtrl db eventId userId role now true).1
  | .cancel reservationId requesterId role =>
      (cancelReservationCtrl db reservationId requesterId role true).1
  | .create inp adminId role => (createEventCtrl db inp adminId role).1
  | .update eventId inp role => (updateEventCtrl db eventId inp role).1

/-- Committed states reachable from the empty store by the four core
operations. -/
inductive Reach : DB → Prop where
  | init : Reach DB.empty
  | step (db : DB) (op : Op) : Reach db → Reach (applyOp db op)

/-- Number of rows currently in `CONFIRMED` status for an event. -/
def confirmedCount (db : DB) (eventId : Nat) : Nat :=
  db.reservations.countP fun r =>
    r.eventId == eventId && decide (r.status = ReservationStatus.CONFIRMED)

/-- An administrative capacity change is capacity-safe when the new
`maxCapacity` is at least the event's current number of `CONFIRMED`
reservations; every other operation is unrestricted. -/
def safeOp (db : DB) : Op → Prop
  | .update eventId inp _ =>
      ∀ m, inp.maxCapacity = some m → (confirmedCount db eventId : Int) ≤ m
  | _ => True

/-- Committed states reachable using only capacity-safe administrative
updates. -/
inductive ReachSafe : DB → Prop where
  | init : ReachSafe DB.empty
  | step (db : DB) (op : Op) : ReachSafe db → safeOp db op → ReachSafe (applyOp db op)

/-- The ledger invariant of the spec (§3, §8) for one database state. -/
def ledgerInv (db : DB) : Prop :=
  ∀ e ∈ db.events,
    0 ≤ e.availableSpots ∧ e.availableSpots ≤ e.maxCapacity ∧
      e.availableSpots = e.maxCapacity - (confirmedCount db e.id : Int)

/-- The reservation-uniqueness invariant of the spec (§3, §8): at most one
`CONFIRMED` row per `(event, user)` pair. -/
def pairInv (db : DB) : Prop :=
  ∀ eventId userId : Nat,
    db.reservations.countP (resMatches eventId userId ReservationStatus.CONFIRMED) ≤ 1

/-- Structural well-formedness carried through the induction: generated ids
are unique and below the allocation counter, and reservations only point at
ids that were already allocated. -/
structure Inv (db : DB) : Prop where
  evIds : db.events.Pairwise fun a b => a.id ≠ b.id
  resIds : db.reservations.Pairwise fun a b => a.id ≠ b.id
  evIdLt : ∀ e ∈ db.events, e.id < db.nextId
  resIdLt : ∀ r ∈ db.reservations, r.id < db.nextId
  resEvLt : ∀ r ∈ db.reservations, r.eventId < db.nextId
  ledger : ledgerInv db

/-- A sample admin-created event payload: capacity `cap`, a physical venue,
`eventDate` at instant 100 (all reserve calls below run at instant 0). -/
def sampleCreate (cap : Int) : CreateEventInput :=
  ⟨"show", none, 100, some "hall", none, cap⟩

/-- Concrete committed states, each obtained from the previous one by one
controller call.  `dbCap2`: admin 9 creates an event (id 0) with capacity 2. -/
def dbCap2 : DB := applyOp DB.empty (.create (sampleCreate 2) 9 .ADMIN)

/-- User 5 reserves event 0 (reservation id 1, spots 2 → 1). -/
def dbR : DB := applyOp dbCap2 (.reserve 0 5 .USER 0)

/-- User 5 cancels reservation 1 (spots 1 → 2). -/
def dbRC : DB := applyOp dbR (.cancel 1 5 .USER)

/-- User 5 reserves event 0 again (reservation id 2, spots 2 → 1): the state
holds one `CANCELED` and one `CONFIRMED` row for the pair (event 0, user 5). -/
def dbRCR : DB := applyOp dbRC (.reserve 0 5 .USER 0)

/-- From `dbR`, user 6 also reserves event 0 (reservation id 2, spots 1 → 0). -/
def dbFull : DB := applyOp dbR (.reserve 0 6 .USER 0)

/-- Admin payload that only shrinks `maxCapacity` to 1. -/
def shrinkTo1 : UpdateEventInput := ⟨none, none, none, none, none, some 1⟩

/-- Admin shrinks event 0 from capacity 2 to capacity 1 while it has two
`CONFIRMED` reservations (spots stay `max(0, 0 + (1 - 2)) = 0`). -/
def dbShrunk : DB := applyOp dbFull (.update 0 shrinkTo1 .ADMIN)

/-- User 5 cancels reservation 1 after the shrink (spots 0 → 1). -/
def dbOver1 : DB := applyOp dbShrunk (.cancel 1 5 .USER)

/-- User 6 cancels reservation 2 after the shrink (spots 1 → 2, above the
shrunken `maxCapacity` of 1). -/
def dbOver2 : DB := applyOp dbOver1 (.cancel 2 6 .USER)

/-- The Scenario-C state: event 0 with `maxCapacity = 10`,
`availableSpots = 8` and two `CONFIRMED` reservations. -/
def dbScenC : DB :=
  ⟨[⟨0, "show", none, 100, some "hall", none, 10, 8, 9⟩],
    [⟨1, 0, 5, ReservationStatus.CONFIRMED⟩, ⟨2, 0, 6, ReservationStatus.CONFIRMED⟩], 3⟩

/-- Admin payload that only shrinks `maxCapacity` to 3. -/
def shrinkTo3 : UpdateEventInput := ⟨none, none, none, none, none, some 3⟩

/-- A keyed in-place update (`UPDATE ... WHERE key = k`) leaves a list
unchanged when no element carries the key. -/
theorem map_keyed_id {α : Type} (key : α → Nat) (k : Nat) (f : α → α) (l : List α)
    (h : ∀ x ∈ l, key x ≠ k) :
    (l.map fun x => if key x == k then f x else x) = l := by
  induction l with
  | nil => rfl
  | cons a t ih =>
    have hne : key a ≠ k := h a (by simp)
    rw [List.map_cons, if_neg (by simpa using hne), ih fun x hx => h x (by simp [hx])]

/-- Effect of a keyed in-place update on a `countP`, over a list whose keys
are pairwise distinct: only the touched row's contribution changes. -/
theorem countP_map_keyed {α : Type} (key : α → Nat) (f : α → α) (p : α → Bool)
    (l : List α) (hp : l.Pairwise fun a b => key a ≠ key b)
    (r : α) (hr : r ∈ l) :
    (l.map fun x => if key x == key r then f x else x).countP p
        + (if p r then 1 else 0)
      = l.countP p + (if p (f r) then 1 else 0) := by
  induction l with
  | nil => cases hr
  | cons a t ih =>
    have hhead := (List.pairwise_cons.mp hp).1
    have hpt := (List.pairwise_cons.mp hp).2
    rcases List.mem_cons.mp hr with rfl | hrt
    · have ht : ∀ x ∈ t, key x ≠ key r := fun x hx => (hhead x hx).symm
      simp only [List.map_cons, beq_self_eq_true, if_true,
        map_keyed_id key (key r) f t ht, List.countP_cons]
      split_ifs <;> omega
    · have ha : (key a == key r) = false := beq_eq_false_iff_ne.mpr (hhead r hrt)
      simp only [List.map_cons, ha, Bool.false_eq_true, if_false, List.countP_cons]
      have h2 := ih hpt hrt
      split_ifs at h2 ⊢ <;> omega

/-- Two members of a list with pairwise-distinct keys and the same key are
the same element. -/
theorem keyed_unique {α : Type} {key : α → Nat} {l : List α}
    (hp : l.Pairwise fun a b => key a ≠ key b) {x y : α}
    (hx : x ∈ l) (hy : y ∈ l) (hk : key x = key y) : x = y := by
  by_contra hne
  have hsym : Symmetric fun a b : α => key a ≠ key b := fun a b h e => h e.symm
  exact List.Pairwise.forall hsym hp hx hy hne hk

/-- A key-preserving map keeps keys pairwise distinct. -/
theorem pairwise_ne_map {α : Type} (key : α → Nat) (f : α → α)
    (hf : ∀ x, key (f x) = key x) {l : List α}
    (hp : l.Pairwise fun a b => key a ≠ key b) :
    (l.map f).Pairwise fun a b => key a ≠ key b := by
  rw [List.pairwise_map]
  exact hp.imp fun h => by simpa only [hf] using h

/-- Unfolding a successful `findEvent`. -/
theorem findEvent_some {db : DB} {k : Nat} {e : Event} (h : findEvent db k = some e) :
    e ∈ db.events ∧ e.id = k :=
  ⟨List.mem_of_find?_eq_some h, by simpa using List.find?_some h⟩

/-- Unfolding a successful `findReservation`. -/
theorem findReservation_some {db : DB} {k : Nat} {r : Reservation}
    (h : findReservation db k = some r) :
    r ∈ db.reservations ∧ r.id = k :=
  ⟨List.mem_of_find?_eq_some h, by simpa using List.find?_some h⟩

/-- Shape of a committed reserve transaction: all four checks passed, the
event row was decremented in place by 1, and exactly the one new `CONFIRMED`
row (with the freshly generated id) was appended. -/
theorem createReservationTx_ok {db : DB} {eventId userId : Nat} {now : Int}
    {db' : DB} {r : Reservation}
    (h : createReservationTx db eventId userId now = .ok (db', r)) :
    ∃ e, findEvent db eventId = some e ∧ ¬ e.eventDate < now ∧ 0 < e.availableSpots ∧
      findConfirmed db eventId userId = none ∧
      r = ⟨db.nextId, eventId, userId, ReservationStatus.CONFIRMED⟩ ∧
      db' = ⟨db.events.map fun x =>
          if x.id == eventId then { x with availableSpots := x.availableSpots - 1 } else x,
        db.reservations ++ [r], db.nextId + 1⟩ := by
  unfold createReservationTx at h
  split at h
  · exact absurd h (by simp)
  next e he =>
  refine ⟨e, he, ?_⟩
  split at h
  · exact absurd h (by simp)
  next h1 =>
  split at h
  · exact absurd h (by simp)
  next h2 =>
  split at h
  next c hc => exact absurd h (by simp)
  next hc =>
  split at h
  · exact absurd h (by simp)
  next h3 =>
  simp only [Except.ok.injEq, Prod.mk.injEq] at h
  exact ⟨h1, by omega, hc, h.2.symm, by rw [← h.2]; exact h.1.symm⟩

/-- A reserve transaction error leaves the committed state unchanged
(transaction rollback, surfaced by the controller as an error response). -/
theorem createReservationCtrl_error {db : DB} {eventId userId : Nat} {role : Role}
    {now : Int} {cacheDelOk : Bool}
    (h : ∀ db' r, ¬ createReservationTx db eventId userId now = .ok (db', r)) :
    (createReservationCtrl db eventId userId role now cacheDelOk).1 = db := by
  unfold createReservationCtrl
  split
  · rfl
  · rcases hr : createReservationTx db eventId userId now with e | ⟨db', r⟩
    · rfl
    · exact absurd hr (h _ _)

/-- Shape of a committed cancel transaction: the reservation existed in
`CONFIRMED` status, its row was flipped to `CANCELED` in place, and the
event row was incremented in place by 1 — unconditionally, with no clamp. -/
theorem cancelReservationTx_ok {db : DB} {reservationId requesterId : Nat}
    {requesterRole : Role} {db' : DB} {r' : Reservation}
    (h : cancelReservationTx db reservationId requesterId requesterRole = .ok (db', r')) :
    ∃ r, findReservation db reservationId = some r ∧
      r.status = ReservationStatus.CONFIRMED ∧
      ¬ (requesterRole = Role.USER ∧ ¬ r.userId = requesterId) ∧
      cancelConflict db.reservations reservationId r.eventId r.userId = false ∧
      (∃ ev, findEvent db r.eventId = some ev) ∧
      r' = { r with status := ReservationStatus.CANCELED } ∧
      db' = ⟨db.events.map fun e =>
          if e.id == r.eventId then { e with availableSpots := e.availableSpots + 1 } else e,
        db.reservations.map fun x =>
          if x.id == reservationId then { x with status := ReservationStatus.CANCELED } else x,
        db.nextId⟩ := by
  unfold cancelReservationTx at h
  split at h
  · exact absurd h (by simp)
  next r hr =>
  refine ⟨r, hr, ?_⟩
  split at h
  · exact absurd h (by simp)
  next h1 =>
  split at h
  · exact absurd h (by simp)
  next h2 =>
  split at h
  · exact absurd h (by simp)
  next h3 =>
  split at h
  · exact absurd h (by simp)
  next ev hev =>
  simp only [Except.ok.injEq, Prod.mk.injEq] at h
  refine ⟨?_, h1, by simpa using h3, ⟨ev, hev⟩, h.2.symm, h.1.symm⟩
  rcases hst : r.status with _ | _
  · rfl
  · exact absurd hst h2

/-- A cancel transaction error leaves the committed state unchanged. -/
theorem cancelReservationCtrl_error {db : DB} {reservationId requesterId : Nat}
    {requesterRole : Role} {cacheDelOk : Bool}
    (h : ∀ db' r, ¬ cancelReservationTx db reservationId requesterId requesterRole = .ok (db', r)) :
    (cancelReservationCtrl db reservationId requesterId requesterRole cacheDelOk).1 = db := by
  unfold cancelReservationCtrl
  rcases hr : cancelReservationTx db reservationId requesterId requesterRole with e | ⟨db', r⟩
  · rfl
  · exact absurd hr (h _ _)

/-- Case split for a committed `createEvent` call: either nothing changed
(validation / role rejection) or the validated event was appended with
`availableSpots = maxCapacity` and a fresh id. -/
theorem createEventCtrl_cases (db : DB) (inp : CreateEventInput) (adminId : Nat)
    (role : Role) :
    (createEventCtrl db inp adminId role).1 = db ∨
      (createEventValid inp = true ∧
        (createEventCtrl db inp adminId role).1 =
          ⟨db.events ++ [⟨db.nextId, inp.name, inp.description, inp.eventDate,
              inp.location, inp.onlineLink, inp.maxCapacity, inp.maxCapacity, adminId⟩],
            db.reservations, db.nextId + 1⟩) := by
  unfold createEventCtrl
  split
  next => exact Or.inl rfl
  next h1 =>
  split
  next => exact Or.inl rfl
  next h2 => exact Or.inr ⟨not_not.mp h1, rfl⟩

/-- Case split for a committed `updateEvent` call: either nothing changed
(rejection) or the targeted row was replaced by `updatedEvent` of the found
row, with the reservations relation untouched. -/
theorem updateEventCtrl_cases (db : DB) (eventId : Nat) (inp : UpdateEventInput)
    (role : Role) :
    (updateEventCtrl db eventId inp role).1 = db ∨
      ∃ existing, findEvent db eventId = some existing ∧ updateEventValid inp = true ∧
        (updateEventCtrl db eventId inp role).1 =
          ⟨db.events.map fun e => if e.id == eventId then updatedEvent existing inp else e,
            db.reservations, db.nextId⟩ := by
  unfold updateEventCtrl
  split
  next => exact Or.inl rfl
  next h1 =>
  split
  next => exact Or.inl rfl
  next h2 =>
  split
  · exact Or.inl rfl
  next existing he =>
  split
  next => exact Or.inl rfl
  next h3 =>
  split
  next => exact Or.inl rfl
  next h4 => exact Or.inr ⟨existing, he, not_not.mp h1, rfl⟩

/-- A committed reserve call either changed nothing (rejection) or committed
its transaction. -/
theorem applyOp_reserve_cases (db : DB) (eventId userId : Nat) (role : Role) (now : Int) :
    applyOp db (.reserve eventId userId role now) = db ∨
      ∃ db' r, createReservationTx db eventId userId now = .ok (db', r) ∧
        applyOp db (.reserve eventId userId role now) = db' := by
  simp only [applyOp]
  unfold createReservationCtrl
  split
  · exact Or.inl rfl
  rcases createReservationTx db eventId userId now with e | ⟨db', r⟩
  · exact Or.inl rfl
  · exact Or.inr ⟨db', r, rfl, rfl⟩

/-- A committed cancel call either changed nothing (rejection) or committed
its transaction. -/
theorem applyOp_cancel_cases (db : DB) (reservationId requesterId : Nat) (role : Role) :
    applyOp db (.cancel reservationId requesterId role) = db ∨
      ∃ db' r, cancelReservationTx db reservationId requesterId role = .ok (db', r) ∧
        applyOp db (.cancel reservationId requesterId role) = db' := by
  simp only [applyOp]
  unfold cancelReservationCtrl
  rcases cancelReservationTx db reservationId requesterId role with e | ⟨db', r⟩
  · exact Or.inl rfl
  · exact Or.inr ⟨db', r, rfl, rfl⟩

/-- A committed reserve transaction preserves the structural invariant. -/
theorem Inv.reserve_ok {db db' : DB} {eventId userId : Nat} {now : Int} {r : Reservation}
    (hInv : Inv db) (h : createReservationTx db eventId userId now = .ok (db', r)) :
    Inv db' := by
  obtain ⟨e, he, hfut, hpos, hnone, hr, hdb'⟩ := createReservationTx_ok h
  obtain ⟨heMem, heId⟩ := findEvent_some he
  subst hdb' hr
  have hcount : ∀ i : Nat,
      confirmedCount ⟨db.events.map fun x =>
          if x.id == eventId then { x with availableSpots := x.availableSpots - 1 } else x,
        db.reservations ++ [⟨db.nextId, eventId, userId, ReservationStatus.CONFIRMED⟩],
        db.nextId + 1⟩ i
        = confirmedCount db i + (if eventId = i then 1 else 0) := by
    intro i
    simp only [confirmedCount, List.countP_append, List.countP_cons, List.countP_nil]
    by_cases hi : eventId = i <;> simp [hi]
  refine ⟨?_, ?_, ?_, ?_, ?_, ?_⟩
  · exact pairwise_ne_map Event.id _ (fun x => by split <;> rfl) hInv.evIds
  · refine List.pairwise_append.mpr ⟨hInv.resIds, List.pairwise_singleton _ _, ?_⟩
    intro a ha b hb
    have hlt := hInv.resIdLt a ha
    have : b = (⟨db.nextId, eventId, userId, ReservationStatus.CONFIRMED⟩ : Reservation) := by
      simpa using hb
    subst this
    simp only []
    omega
  · intro e' he'
    obtain ⟨x, hx, rfl⟩ := List.mem_map.mp he'
    have : (if x.id == eventId then
        { x with availableSpots := x.availableSpots - 1 } else x).id = x.id := by
      split <;> rfl
    rw [this]
    have := hInv.evIdLt x hx
    simp only []
    omega
  · intro a ha
    rcases List.mem_append.mp ha with haOld | haNew
    · have := hInv.resIdLt a haOld
      simp only []
      omega
    · have : a = (⟨db.nextId, eventId, userId, ReservationStatus.CONFIRMED⟩ : Reservation) := by
        simpa using haNew
      subst this
      simp only []
      omega
  · intro a ha
    rcases List.mem_append.mp ha with haOld | haNew
    · have := hInv.resEvLt a haOld
      simp only []
      omega
    · have : a = (⟨db.nextId, eventId, userId, ReservationStatus.CONFIRMED⟩ : Reservation) := by
        simpa using haNew
      subst this
      have : eventId < db.nextId := heId ▸ hInv.evIdLt e heMem
      simp only []
      omega
  · intro e' he'
    obtain ⟨x, hx, rfl⟩ := List.mem_map.mp he'
    obtain ⟨h0, hle, heqL⟩ := hInv.ledger x hx
    by_cases hc : (x.id == eventId) = true
    · have hxe : x = e := keyed_unique hInv.evIds hx heMem (by
        rw [heId]; exact beq_iff_eq.mp hc)
      have hxid : x.id = eventId := beq_iff_eq.mp hc
      have hposx : 0 < x.availableSpots := by rw [hxe]; exact hpos
      rw [if_pos hc]
      rw [hxid] at heqL
      refine ⟨?_, ?_, ?_⟩ <;> simp only [hcount, hxid, if_pos rfl]
      · omega
      · omega
      · push_cast
        omega
    · rw [if_neg hc]
      have hxid : ¬ eventId = x.id := fun hh => hc (beq_iff_eq.mpr hh.symm)
      refine ⟨h0, hle, ?_⟩
      rw [hcount, if_neg hxid]
      simpa using heqL

/-- A committed cancel transaction preserves the structural invariant. -/
theorem Inv.cancel_ok {db db' : DB} {reservationId requesterId : Nat}
    {requesterRole : Role} {r' : Reservation}
    (hInv : Inv db)
    (h : cancelReservationTx db reservationId requesterId requesterRole = .ok (db', r')) :
    Inv db' := by
  obtain ⟨r, hr, hst, hauth, hconf, ⟨ev, hev⟩, hr', hdb'⟩ := cancelReservationTx_ok h
  obtain ⟨hrMem, hrId⟩ := findReservation_some hr
  obtain ⟨hevMem, hevId⟩ := findEvent_some hev
  subst hdb' hrId
  have hcount : ∀ i : Nat,
      (db.reservations.map fun x =>
          if x.id == r.id then { x with status := ReservationStatus.CANCELED } else x).countP
          (fun a => a.eventId == i && decide (a.status = ReservationStatus.CONFIRMED))
          + (if r.eventId = i then 1 else 0)
        = confirmedCount db i := by
    intro i
    have hkey := countP_map_keyed Reservation.id
      (fun x => { x with status := ReservationStatus.CANCELED })
      (fun a => a.eventId == i && decide (a.status = ReservationStatus.CONFIRMED))
      db.reservations hInv.resIds r hrMem
    simp only [hst] at hkey
    by_cases hi : r.eventId = i
    · simpa [confirmedCount, hi] using hkey
    · have hbeq : (r.eventId == i) = false := beq_eq_false_iff_ne.mpr hi
      simpa [confirmedCount, hbeq, hi] using hkey
  refine ⟨?_, ?_, ?_, ?_, ?_, ?_⟩
  · exact pairwise_ne_map Event.id _ (fun x => by split <;> rfl) hInv.evIds
  · exact pairwise_ne_map Reservation.id _ (fun x => by split <;> rfl) hInv.resIds
  · intro e' he'
    obtain ⟨x, hx, rfl⟩ := List.mem_map.mp he'
    have hidx : (if x.id == r.eventId then
        { x with availableSpots := x.availableSpots + 1 } else x).id = x.id := by
      split <;> rfl
    rw [hidx]
    exact hInv.evIdLt x hx
  · intro a ha
    obtain ⟨x, hx, rfl⟩ := List.mem_map.mp ha
    have hidx : (if x.id == r.id then
        { x with status := ReservationStatus.CANCELED } else x).id = x.id := by
      split <;> rfl
    rw [hidx]
    exact hInv.resIdLt x hx
  · intro a ha
    obtain ⟨x, hx, rfl⟩ := List.mem_map.mp ha
    have hidx : (if x.id == r.id then
        { x with status := ReservationStatus.CANCELED } else x).eventId = x.eventId := by
      split <;> rfl
    rw [hidx]
    exact hInv.resEvLt x hx
  · intro e' he'
    obtain ⟨x, hx, rfl⟩ := List.mem_map.mp he'
    obtain ⟨h0, hle, heqL⟩ := hInv.ledger x hx
    by_cases hc : (x.id == r.eventId) = true
    · have hxid : x.id = r.eventId := beq_iff_eq.mp hc
      have hcnt := hcount r.eventId
      rw [if_pos rfl] at hcnt
      rw [hxid] at heqL
      rw [if_pos hc]
      simp only [confirmedCount] at hcnt heqL
      refine ⟨?_, ?_, ?_⟩ <;> simp only [confirmedCount, hxid] <;> omega
    · have hxid : ¬ r.eventId = x.id := fun hh => hc (beq_iff_eq.mpr hh.symm)
      have hcnt := hcount x.id
      rw [if_neg hxid] at hcnt
      rw [if_neg hc]
      refine ⟨h0, hle, ?_⟩
      simp only [confirmedCount] at hcnt heqL ⊢
      rw [← hcnt] at heqL
      simpa using heqL

/-- A committed `createEvent` call preserves the structural invariant. -/
theorem Inv.create_ok {db : DB} (inp : CreateEventInput) (adminId : Nat) (role : Role)
    (hInv : Inv db) : Inv (applyOp db (.create inp adminId role)) := by
  rcases createEventCtrl_cases db inp adminId role with hsame | ⟨hvalid, heq⟩
  · simpa only [applyOp, hsame] using hInv
  have hcap : 0 < inp.maxCapacity := by
    have := (Bool.and_eq_true _ _).mp ((Bool.and_eq_true _ _).mp hvalid).1
    simpa using this.2
  simp only [applyOp, heq]
  have hcount : ∀ i : Nat,
      confirmedCount ⟨db.events ++ [⟨db.nextId, inp.name, inp.description, inp.eventDate,
          inp.location, inp.onlineLink, inp.maxCapacity, inp.maxCapacity, adminId⟩],
        db.reservations, db.nextId + 1⟩ i = confirmedCount db i := fun i => rfl
  refine ⟨?_, hInv.resIds, ?_, ?_, ?_, ?_⟩
  · refine List.pairwise_append.mpr ⟨hInv.evIds, List.pairwise_singleton _ _, ?_⟩
    intro a ha b hb
    have hlt := hInv.evIdLt a ha
    have : b = (⟨db.nextId, inp.name, inp.description, inp.eventDate, inp.location,
        inp.onlineLink, inp.maxCapacity, inp.maxCapacity, adminId⟩ : Event) := by
      simpa using hb
    subst this
    simp only []
    omega
  · intro e' he'
    rcases List.mem_append.mp he' with hOld | hNew
    · have := hInv.evIdLt e' hOld
      simp only []
      omega
    · have : e' = (⟨db.nextId, inp.name, inp.description, inp.eventDate, inp.location,
          inp.onlineLink, inp.maxCapacity, inp.maxCapacity, adminId⟩ : Event) := by
        simpa using hNew
      subst this
      simp only []
      omega
  · intro a ha
    have := hInv.resIdLt a ha
    simp only []
    omega
  · intro a ha
    have := hInv.resEvLt a ha
    simp only []
    omega
  · intro e' he'
    rcases List.mem_append.mp he' with hOld | hNew
    · obtain ⟨h0, hle, heqL⟩ := hInv.ledger e' hOld
      exact ⟨h0, hle, by rw [hcount]; exact heqL⟩
    · have : e' = (⟨db.nextId, inp.name, inp.description, inp.eventDate, inp.location,
          inp.onlineLink, inp.maxCapacity, inp.maxCapacity, adminId⟩ : Event) := by
        simpa using hNew
      subst this
      have hzero : confirmedCount db db.nextId = 0 := by
        refine List.countP_eq_zero.mpr ?_
        intro a ha
        have := hInv.resEvLt a ha
        simp only [Bool.and_eq_true, beq_iff_eq, decide_eq_true_eq, not_and]
        intro hae
        omega
      refine ⟨?_, ?_, ?_⟩ <;> simp only [hcount, hzero] <;> push_cast <;> omega

/-- `updatedEvent` capacity fields when `maxCapacity` is not in the payload. -/
theorem updatedEvent_none (existing : Event) (inp : UpdateEventInput)
    (hm : inp.maxCapacity = none) :
    (updatedEvent existing inp).availableSpots = existing.availableSpots ∧
      (updatedEvent existing inp).maxCapacity = existing.maxCapacity := by
  simp [updatedEvent, newSpotsOf, hm]

/-- `updatedEvent` capacity fields when the payload repeats the stored
`maxCapacity`. -/
theorem updatedEvent_same (existing : Event) (inp : UpdateEventInput) (m : Int)
    (hm : inp.maxCapacity = some m) (hmc : m = existing.maxCapacity) :
    (updatedEvent existing inp).availableSpots = existing.availableSpots ∧
      (updatedEvent existing inp).maxCapacity = m := by
  simp [updatedEvent, newSpotsOf, hm, hmc]

/-- `updatedEvent` capacity fields when the payload changes `maxCapacity`:
the clamped signed-delta recomputation. -/
theorem updatedEvent_delta (existing : Event) (inp : UpdateEventInput) (m : Int)
    (hm : inp.maxCapacity = some m) (hmc : ¬ m = existing.maxCapacity) :
    (updatedEvent existing inp).availableSpots
        = max 0 (existing.availableSpots + (m - existing.maxCapacity)) ∧
      (updatedEvent existing inp).maxCapacity = m := by
  simp [updatedEvent, newSpotsOf, hm, hmc]

/-- A capacity-safe committed `updateEvent` call preserves the structural
invariant. -/
theorem Inv.update_ok {db : DB} (eventId : Nat) (inp : UpdateEventInput) (role : Role)
    (hInv : Inv db)
    (hsafe : ∀ m, inp.maxCapacity = some m → (confirmedCount db eventId : Int) ≤ m) :
    Inv (applyOp db (.update eventId inp role)) := by
  rcases updateEventCtrl_cases db eventId inp role with hsame | ⟨existing, he, hvalid, heq⟩
  · simpa only [applyOp, hsame] using hInv
  obtain ⟨hexMem, hexId⟩ := findEvent_some he
  simp only [applyOp, heq]
  have hidf : ∀ x : Event,
      (if x.id == eventId then updatedEvent existing inp else x).id = x.id := by
    intro x
    split
    next hcc => simp only [updatedEvent, hexId, beq_iff_eq.mp hcc]
    next => rfl
  have hcount : ∀ i : Nat,
      confirmedCount ⟨db.events.map fun e =>
          if e.id == eventId then updatedEvent existing inp else e,
        db.reservations, db.nextId⟩ i = confirmedCount db i := fun i => rfl
  refine ⟨?_, hInv.resIds, ?_, hInv.resIdLt, hInv.resEvLt, ?_⟩
  · exact pairwise_ne_map Event.id _ hidf hInv.evIds
  · intro e' he'
    obtain ⟨x, hx, rfl⟩ := List.mem_map.mp he'
    rw [hidf]
    exact hInv.evIdLt x hx
  · intro e' he'
    obtain ⟨x, hx, rfl⟩ := List.mem_map.mp he'
    by_cases hc : (x.id == eventId) = true
    · obtain ⟨h0, hle, heqL⟩ := hInv.ledger existing hexMem
      rw [if_pos hc]
      have hidU : (updatedEvent existing inp).id = eventId := by
        simp only [updatedEvent]
        exact hexId
      rw [hcount, hidU]
      rw [hexId] at heqL
      rcases hm : inp.maxCapacity with _ | m
      · obtain ⟨hsp, hmx⟩ := updatedEvent_none existing inp hm
        rw [hsp, hmx]
        exact ⟨h0, hle, heqL⟩
      · by_cases hmc : m = existing.maxCapacity
        · obtain ⟨hsp, hmx⟩ := updatedEvent_same existing inp m hm hmc
          rw [hsp, hmx, hmc]
          exact ⟨h0, hle, heqL⟩
        · obtain ⟨hsp, hmx⟩ := updatedEvent_delta existing inp m hm hmc
          have hs := hsafe m hm
          rw [hsp, hmx]
          refine ⟨?_, ?_, ?_⟩ <;> omega
    · rw [if_neg hc]
      obtain ⟨h0, hle, heqL⟩ := hInv.ledger x hx
      exact ⟨h0, hle, by rw [hcount]; exact heqL⟩

/-- Any capacity-safe committed operation preserves the structural invariant. -/
theorem Inv.preserved {db : DB} (op : Op) (hInv : Inv db) (hsafe : safeOp db op) :
    Inv (applyOp db op) := by
  cases op with
  | reserve eventId userId role now =>
    rcases applyOp_reserve_cases db eventId userId role now with hsame | ⟨db', r, hok, heq⟩
    · rwa [hsame]
    · rw [heq]; exact hInv.reserve_ok hok
  | cancel reservationId requesterId role =>
    rcases applyOp_cancel_cases db reservationId requesterId role with hsame | ⟨db', r, hok, heq⟩
    · rwa [hsame]
    · rw [heq]; exact hInv.cancel_ok hok
  | create inp adminId role => exact hInv.create_ok inp adminId role
  | update eventId inp role => exact hInv.update_ok eventId inp role hsafe

/-- Every state reachable with capacity-safe administrative updates satisfies
the structural invariant. -/
theorem inv_of_reachSafe {db : DB} (h : ReachSafe db) : Inv db := by
  induction h with
  | init =>
    exact ⟨List.Pairwise.nil, List.Pairwise.nil,
      fun e he => absurd he (List.not_mem_nil e),
      fun r hr => absurd hr (List.not_mem_nil r),
      fun r hr => absurd hr (List.not_mem_nil r),
      fun e he => absurd he (List.not_mem_nil e)⟩
  | step db op hdb hsafe ih => exact ih.preserved op hsafe

/-- Every committed operation preserves at-most-one-`CONFIRMED`-per-pair. -/
theorem pairInv_preserved {db : DB} (op : Op) (hp : pairInv db) : pairInv (applyOp db op) := by
  cases op with
  | reserve eventId userId role now =>
    rcases applyOp_reserve_cases db eventId userId role now with hsame | ⟨db', r, hok, heq⟩
    · rwa [hsame]
    · rw [heq]
      obtain ⟨e, he, hfut, hpos, hnone, hr, hdb'⟩ := createReservationTx_ok hok
      subst hdb' hr
      intro eid uid
      simp only [List.countP_append, List.countP_cons, List.countP_nil]
      by_cases hmatch : eid = eventId ∧ uid = userId
      · obtain ⟨rfl, rfl⟩ := hmatch
        have hzero : db.reservations.countP
            (resMatches eid uid ReservationStatus.CONFIRMED) = 0 :=
          List.countP_eq_zero.mpr (List.find?_eq_none.mp hnone)
        simp [hzero, resMatches]
      · have hne : ¬ (eventId = eid ∧ userId = uid) :=
          fun ⟨h1, h2⟩ => hmatch ⟨h1.symm, h2.symm⟩
        have hfalse : resMatches eid uid ReservationStatus.CONFIRMED
            ⟨db.nextId, eventId, userId, ReservationStatus.CONFIRMED⟩ = false := by
          simp [resMatches]
          tauto
        simp only [hfalse, Bool.false_eq_true, if_false]
        simpa using hp eid uid
  | cancel reservationId requesterId role =>
    rcases applyOp_cancel_cases db reservationId requesterId role with hsame | ⟨db', r, hok, heq⟩
    · rwa [hsame]
    · rw [heq]
      obtain ⟨r0, hr, hst, hauth, hconf, ⟨ev, hev⟩, hr', hdb'⟩ := cancelReservationTx_ok hok
      subst hdb'
      intro eid uid
      rw [List.countP_map]
      refine le_trans (List.countP_mono_left ?_) (hp eid uid)
      intro x hx hpx
      rw [Function.comp_apply] at hpx
      by_cases hc : (x.id == reservationId) = true
      · rw [if_pos hc] at hpx
        simp [resMatches] at hpx
      · rwa [if_neg hc] at hpx
  | create inp adminId role =>
    rcases createEventCtrl_cases db inp adminId role with hsame | ⟨hvalid, heq⟩
    · simpa only [applyOp, hsame] using hp
    · simp only [applyOp, heq]
      intro eid uid
      exact hp eid uid
  | update eventId inp role =>
    rcases updateEventCtrl_cases db eventId inp role with hsame | ⟨ex, he, hv, heq⟩
    · simpa only [applyOp, hsame] using hp
    · simp only [applyOp, heq]
      intro eid uid
      exact hp eid uid

/-- Every reachable committed state has at most one `CONFIRMED` row per
`(event, user)` pair. -/
theorem pairInv_of_reach {db : DB} (h : Reach db) : pairInv db := by
  induction h with
  | init => intro eid uid; simp [DB.empty]
  | step db op hdb ih => exact pairInv_preserved op ih

/-- A key-preserving map commutes with a find-by-key. -/
theorem find?_key_map {α : Type} (key : α → Nat) (f : α → α)
    (hf : ∀ x, key (f x) = key x) (j : Nat) (l : List α) :
    (l.map f).find? (fun x => key x == j) = Option.map f (l.find? fun x => key x == j) := by
  induction l with
  | nil => rfl
  | cons a t ih =>
    rw [List.map_cons]
    by_cases hj : (key a == j) = true
    · rw [@List.find?_cons_of_pos α (fun x => key x == j) (f a) (t.map f)
          (by show (key (f a) == j) = true; rw [hf]; exact hj),
        @List.find?_cons_of_pos α (fun x => key x == j) a t hj]
      rfl
    · rw [@List.find?_cons_of_neg α (fun x => key x == j) (f a) (t.map f)
          (by show ¬ (key (f a) == j) = true; rw [hf]; exact hj),
        @List.find?_cons_of_neg α (fun x => key x == j) a t hj, ih]

/-- The concrete states of the scenario traces are reachable. -/
theorem reach_dbCap2 : Reach dbCap2 := Reach.step _ _ Reach.init

theorem reach_dbR : Reach dbR := Reach.step _ _ reach_dbCap2

theorem reach_dbRC : Reach dbRC := Reach.step _ _ reach_dbR

theorem reach_dbRCR : Reach dbRCR := Reach.step _ _ reach_dbRC

theorem reach_dbFull : Reach dbFull := Reach.step _ _ reach_dbR

theorem reach_dbShrunk : Reach dbShrunk := Reach.step _ _ reach_dbFull

theorem reach_dbOver1 : Reach dbOver1 := Reach.step _ _ reach_dbShrunk

theorem reach_dbOver2 : Reach dbOver2 := Reach.step _ _ reach_dbOver1

/-- C1 (counterexample): the claimed invariant fails at committed states
reachable by the four core operations.  After `createEvent(maxCapacity 2)`,
two reserves, and `updateEvent(maxCapacity 1)`, the event has
`availableSpots = 0` but `maxCapacity - confirmedCount = 1 - 2 = -1`; after
the two subsequent cancels, `availableSpots = 2 > maxCapacity = 1`, breaking
the claimed range as well. -/
theorem c1_invariant_counterexample :
    Reach dbShrunk ∧ ¬ ledgerInv dbShrunk ∧
      Reach dbOver2 ∧ ∃ e ∈ dbOver2.events, ¬ e.availableSpots ≤ e.maxCapacity := by
  refine ⟨reach_dbShrunk, by unfold ledgerInv; decide, reach_dbOver2, by decide⟩

/-- C1 (amended): at every committed state reachable by reserve, cancel,
createEvent, and updateEvent calls whose capacity changes never set
`maxCapacity` below the event's current number of CONFIRMED reservations,
every event satisfies `0 ≤ availableSpots ≤ maxCapacity` and
`availableSpots = maxCapacity - confirmedCount`. -/
theorem c1_ledger_invariant (db : DB) (h : ReachSafe db) :
    ∀ e ∈ db.events,
      0 ≤ e.availableSpots ∧ e.availableSpots ≤ e.maxCapacity ∧
        e.availableSpots = e.maxCapacity - (confirmedCount db e.id : Int) :=
  (inv_of_reachSafe h).ledger

/-- C1 witness: the invariant instantiated at the reachable state after
create, reserve, cancel, reserve. -/
theorem c1_ledger_invariant_witness :
    0 ≤ (⟨0, "show", none, 100, some "hall", none, 2, 1, 9⟩ : Event).availableSpots ∧
      (⟨0, "show", none, 100, some "hall", none, 2, 1, 9⟩ : Event).availableSpots
        ≤ (⟨0, "show", none, 100, some "hall", none, 2, 1, 9⟩ : Event).maxCapacity ∧
      (⟨0, "show", none, 100, some "hall", none, 2, 1, 9⟩ : Event).availableSpots
        = (⟨0, "show", none, 100, some "hall", none, 2, 1, 9⟩ : Event).maxCapacity
          - (confirmedCount dbRCR (⟨0, "show", none, 100, some "hall", none,
              2, 1, 9⟩ : Event).id : Int) :=
  c1_ledger_invariant dbRCR
    (ReachSafe.step _ _ (ReachSafe.step _ _ (ReachSafe.step _ _
      (ReachSafe.step _ _ ReachSafe.init trivial) trivial) trivial) trivial)
    ⟨0, "show", none, 100, some "hall", none, 2, 1, 9⟩ (by decide)

/-- C2: at every reachable committed state, each `(event, user)` pair has at
most one CONFIRMED reservation row; and reserve preserves this by rejecting
with `AlreadyReserved` when a CONFIRMED row for the pair already exists (on
an existing future event with spots left). -/
theorem c2_at_most_one_confirmed :
    (∀ db : DB, Reach db → ∀ eventId userId : Nat,
        db.reservations.countP (resMatches eventId userId ReservationStatus.CONFIRMED) ≤ 1) ∧
    (∀ (db : DB) (eventId userId : Nat) (now : Int) (e : Event) (r : Reservation),
      findEvent db eventId = some e → ¬ e.eventDate < now → 0 < e.availableSpots →
      findConfirmed db eventId userId = some r →
      createReservationTx db eventId userId now = .error .AlreadyReserved) := by
  constructor
  · exact fun db h => pairInv_of_reach h
  · intro db eventId userId now e r he hfut hpos hres
    simp only [createReservationTx, he, hres]
    rw [if_neg hfut, if_neg (by omega)]

/-- C2 witness: at the reachable state after create, reserve, cancel,
reserve, user 5 holds one CONFIRMED row and a re-entrant reserve is rejected
with `AlreadyReserved`. -/
theorem c2_at_most_one_confirmed_witness :
    dbRCR.reservations.countP (resMatches 0 5 ReservationStatus.CONFIRMED) ≤ 1 ∧
      createReservationTx dbRCR 0 5 0 = .error .AlreadyReserved :=
  ⟨c2_at_most_one_confirmed.1 dbRCR reach_dbRCR 0 5,
    c2_at_most_one_confirmed.2 dbRCR 0 5 0
      ⟨0, "show", none, 100, some "hall", none, 2, 1, 9⟩
      ⟨2, 0, 5, ReservationStatus.CONFIRMED⟩ rfl (by decide) (by decide) rfl⟩

/-- C10: in reserve, the capacity check precedes the duplicate-reservation
check: on a future event with `availableSpots ≤ 0`, a user who already holds
a CONFIRMED reservation receives `CapacityExhausted`, not `AlreadyReserved`. -/
theorem c10_capacity_check_first
    (db : DB) (eventId userId : Nat) (now : Int) (e : Event) (r : Reservation)
    (he : findEvent db eventId = some e) (hfut : ¬ e.eventDate < now)
    (hfull : e.availableSpots ≤ 0)
    (_hres : findConfirmed db eventId userId = some r) :
    createReservationTx db eventId userId now = .error .CapacityExhausted ∧
      ¬ createReservationTx db eventId userId now = .error .AlreadyReserved := by
  have htx : createReservationTx db eventId userId now = .error .CapacityExhausted := by
    simp only [createReservationTx, he]
    rw [if_neg hfut, if_pos hfull]
  exact ⟨htx, by rw [htx]; simp⟩

/-- C10 witness: at the reachable full state (spots 0), user 5 — who holds
CONFIRMED reservation 1 — gets `CapacityExhausted` on a repeat reserve. -/
theorem c10_capacity_check_first_witness :
    createReservationTx dbFull 0 5 0 = .error .CapacityExhausted ∧
      ¬ createReservationTx dbFull 0 5 0 = .error .AlreadyReserved :=
  c10_capacity_check_first dbFull 0 5 0
    ⟨0, "show", none, 100, some "hall", none, 2, 0, 9⟩
    ⟨1, 0, 5, ReservationStatus.CONFIRMED⟩ rfl (by decide) (by decide) rfl

/-- C7 (counterexample): the cancel-path increment has NO clamp.  At the
reachable state after a capacity shrink (2 → 1) and one cancel, a further
successful cancel drives `availableSpots` to 2, above `maxCapacity = 1`. -/
theorem c7_no_clamp_counterexample :
    Reach dbOver1 ∧
      cancelReservationTx dbOver1 2 6 Role.USER
        = .ok (dbOver2, ⟨2, 0, 6, ReservationStatus.CANCELED⟩) ∧
      dbOver2.events = [⟨0, "show", none, 100, some "hall", none, 1, 2, 9⟩] ∧
      ¬ ((2 : Int) ≤ 1) :=
  ⟨reach_dbOver1, rfl, rfl, by decide⟩

/-- C7 (amended): every successful cancel adds exactly 1 to the event's
`availableSpots`, unconditionally and with no clamp against `maxCapacity`
(so a state reached through an administrative capacity shrink can end up
with `availableSpots > maxCapacity`). -/
theorem c7_cancel_increments_unclamped {db db' : DB}
    {reservationId requesterId : Nat} {requesterRole : Role} {r' : Reservation}
    (h : cancelReservationTx db reservationId requesterId requesterRole = .ok (db', r')) :
    db'.events = db.events.map fun e =>
      if e.id == r'.eventId then { e with availableSpots := e.availableSpots + 1 } else e := by
  obtain ⟨r, hr, hst, hauth, hconf, ⟨ev, hev⟩, hr', hdb'⟩ := cancelReservationTx_ok h
  subst hdb' hr'
  rfl

/-- C7 witness: the unclamped increment instantiated at the first concrete
cancel of the trace. -/
theorem c7_cancel_increments_unclamped_witness :
    dbRC.events = dbR.events.map fun e =>
      if e.id == (⟨1, 0, 5, ReservationStatus.CANCELED⟩ : Reservation).eventId
      then { e with availableSpots := e.availableSpots + 1 } else e :=
  @c7_cancel_increments_unclamped dbR dbRC 1 5 Role.USER
    ⟨1, 0, 5, ReservationStatus.CANCELED⟩ rfl

/-- C6 (counterexample): shrinking `maxCapacity` from 10 to 3 on an event
with `availableSpots = 8` (two CONFIRMED reservations) yields
`availableSpots = max(0, 8 + (3 - 10)) = 1`, not 0 as the claim computes. -/
theorem c6_shrink_counterexample :
    ∃ ev, (updateEventCtrl dbScenC 0 shrinkTo3 Role.ADMIN).2 = some ev ∧
      ev.availableSpots = 1 ∧ ¬ ev.availableSpots = 0 ∧
      (updateEventCtrl dbScenC 0 shrinkTo3 Role.ADMIN).1.reservations
        = dbScenC.reservations :=
  ⟨_, rfl, rfl, by decide, rfl⟩

/-- C6 (amended): `updateEvent` with a changed `maxCapacity` sets
`availableSpots` to `max(0, availableSpots + (newMaxCapacity -
oldMaxCapacity))` and leaves the reservations relation untouched; in
particular shrinking 10 → 3 with `availableSpots = 8` yields
`max(0, 8 + (3 - 10)) = 1`. -/
theorem c6_update_capacity_delta
    (db : DB) (eventId : Nat) (inp : UpdateEventInput) (existing : Event) (m : Int)
    (hvalid : updateEventValid inp = true)
    (he : findEvent db eventId = some existing)
    (hm : inp.maxCapacity = some m) (hne : ¬ m = existing.maxCapacity)
    (hxor : ¬ venuePresent (finalVenueField inp.location existing.location)
        = venuePresent (finalVenueField inp.onlineLink existing.onlineLink)) :
    ∃ ev, (updateEventCtrl db eventId inp Role.ADMIN).2 = some ev ∧
      ev.availableSpots = max 0 (existing.availableSpots + (m - existing.maxCapacity)) ∧
      ev.maxCapacity = m ∧
      (updateEventCtrl db eventId inp Role.ADMIN).1.reservations = db.reservations := by
  obtain ⟨hsp, hmx⟩ := updatedEvent_delta existing inp m hm hne
  unfold updateEventCtrl
  rw [if_neg (by simp [hvalid]), if_neg (by simp)]
  simp only [he]
  rw [if_neg (by
      rintro ⟨ha, hb⟩
      rw [Bool.not_eq_true] at ha hb
      exact hxor (ha.trans hb.symm)),
    if_neg (by rintro ⟨ha, hb⟩; exact hxor (ha.trans hb.symm))]
  exact ⟨updatedEvent existing inp, rfl, hsp, hmx, rfl⟩

/-- C6 witness: the Scenario-C instance — shrink 10 → 3 with spots 8 and two
CONFIRMED reservations gives spots `max(0, 8 + (3 - 10))` and no reservation
is touched. -/
theorem c6_update_capacity_delta_witness :
    ∃ ev, (updateEventCtrl dbScenC 0 shrinkTo3 Role.ADMIN).2 = some ev ∧
      ev.availableSpots
        = max 0 ((8 : Int) + ((3 : Int) - (10 : Int))) ∧
      ev.maxCapacity = 3 ∧
      (updateEventCtrl dbScenC 0 shrinkTo3 Role.ADMIN).1.reservations
        = dbScenC.reservations :=
  c6_update_capacity_delta dbScenC 0 shrinkTo3
    ⟨0, "show", none, 100, some "hall", none, 10, 8, 9⟩ 3
    rfl rfl rfl (by decide) (by decide)

/-- C9 (counterexample): with a failing cache delete, a reserve whose
transaction committed (the database state advances to `dbR`, which contains
the new CONFIRMED row) is answered with status 500 and NO reservation body —
the cache failure is propagated, not swallowed. -/
theorem c9_cache_failure_counterexample :
    (createReservationCtrl dbCap2 0 5 Role.USER 0 false).2
        = ⟨500, none⟩ ∧
      (createReservationCtrl dbCap2 0 5 Role.USER 0 false).1 = dbR ∧
      ¬ (createReservationCtrl dbCap2 0 5 Role.USER 0 false).2.reservationBody
          = some ⟨1, 0, 5, ReservationStatus.CONFIRMED⟩ :=
  ⟨rfl, rfl, by decide⟩

/-- C9 (amended): when the transaction commits and the cache delete then
fails, the controller's catch-all returns status 500 with no reservation
body, while the committed database state persists (for both reserve and
cancel). -/
theorem c9_cache_failure_returns_500 :
    (∀ (db db' : DB) (eventId userId : Nat) (now : Int) (r : Reservation),
      createReservationTx db eventId userId now = .ok (db', r) →
      createReservationCtrl db eventId userId Role.USER now false = (db', ⟨500, none⟩)) ∧
    (∀ (db db' : DB) (reservationId requesterId : Nat) (role : Role) (r : Reservation),
      cancelReservationTx db reservationId requesterId role = .ok (db', r) →
      cancelReservationCtrl db reservationId requesterId role false = (db', ⟨500, none⟩)) := by
  constructor
  · intro db db' eventId userId now r h
    unfold createReservationCtrl
    rw [if_neg (by simp), h]
    rfl
  · intro db db' reservationId requesterId role r h
    unfold cancelReservationCtrl
    rw [h]
    rfl

/-- C9 witness: the 500-after-commit behaviour instantiated at the concrete
reserve and cancel of the trace. -/
theorem c9_cache_failure_returns_500_witness :
    createReservationCtrl dbCap2 0 5 Role.USER 0 false = (dbR, ⟨500, none⟩) ∧
      cancelReservationCtrl dbR 1 5 Role.USER false = (dbRC, ⟨500, none⟩) :=
  ⟨c9_cache_failure_returns_500.1 dbCap2 dbR 0 5 0
      ⟨1, 0, 5, ReservationStatus.CONFIRMED⟩ rfl,
    c9_cache_failure_returns_500.2 dbR dbRC 1 5 Role.USER
      ⟨1, 0, 5, ReservationStatus.CANCELED⟩ rfl⟩

/-- C3: on an existing future event, for a user with no CONFIRMED
reservation: if `availableSpots ≤ 0` the reserve transaction fails with
`CapacityExhausted` and the committed state is unchanged; otherwise it
commits, decrementing the event row in place by exactly 1 (the relative
`decrement: 1` of the source) and appending exactly one new CONFIRMED row. -/
theorem c3_reserve_behavior
    (db : DB) (eventId userId : Nat) (now : Int) (e : Event)
    (he : findEvent db eventId = some e) (hfut : ¬ e.eventDate < now)
    (hnodup : findConfirmed db eventId userId = none) :
    (e.availableSpots ≤ 0 →
      createReservationTx db eventId userId now = .error .CapacityExhausted ∧
      ∀ (role : Role) (cacheDelOk : Bool),
        (createReservationCtrl db eventId userId role now cacheDelOk).1 = db) ∧
    (0 < e.availableSpots →
      createReservationTx db eventId userId now
        = .ok (⟨db.events.map fun x =>
              if x.id == eventId then { x with availableSpots := x.availableSpots - 1 }
              else x,
            db.reservations ++ [⟨db.nextId, eventId, userId, ReservationStatus.CONFIRMED⟩],
            db.nextId + 1⟩,
          ⟨db.nextId, eventId, userId, ReservationStatus.CONFIRMED⟩)) := by
  have hnotriple : hasTriple db.reservations eventId userId ReservationStatus.CONFIRMED
      = false :=
    List.any_eq_false.mpr (List.find?_eq_none.mp hnodup)
  constructor
  · intro hfull
    have htx : createReservationTx db eventId userId now = .error .CapacityExhausted := by
      simp only [createReservationTx, he]
      rw [if_neg hfut, if_pos hfull]
    refine ⟨htx, fun role cacheDelOk => createReservationCtrl_error ?_⟩
    intro db' r hok
    rw [htx] at hok
    simp at hok
  · intro hpos
    simp only [createReservationTx, he, hnodup]
    rw [if_neg hfut, if_neg (by omega), if_neg (by simp [hnotriple])]

/-- C3 witness: the capacity-exhausted branch at the full event (user 7,
no reservation) and the success branch at the fresh event (user 5). -/
theorem c3_reserve_behavior_witness :
    (createReservationTx dbFull 0 7 0 = .error .CapacityExhausted ∧
      (createReservationCtrl dbFull 0 7 Role.USER 0 true).1 = dbFull) ∧
    createReservationTx dbCap2 0 5 0
      = .ok (⟨dbCap2.events.map fun x =>
            if x.id == 0 then { x with availableSpots := x.availableSpots - 1 } else x,
          dbCap2.reservations ++ [⟨dbCap2.nextId, 0, 5, ReservationStatus.CONFIRMED⟩],
          dbCap2.nextId + 1⟩,
        ⟨dbCap2.nextId, 0, 5, ReservationStatus.CONFIRMED⟩) := by
  refine ⟨⟨?_, ?_⟩, ?_⟩
  · exact ((c3_reserve_behavior dbFull 0 7 0
      ⟨0, "show", none, 100, some "hall", none, 2, 0, 9⟩ rfl (by decide) rfl).1
      (by decide)).1
  · exact ((c3_reserve_behavior dbFull 0 7 0
      ⟨0, "show", none, 100, some "hall", none, 2, 0, 9⟩ rfl (by decide) rfl).1
      (by decide)).2 Role.USER true
  · exact (c3_reserve_behavior dbCap2 0 5 0
      ⟨0, "show", none, 100, some "hall", none, 2, 2, 9⟩ rfl (by decide) rfl).2
      (by decide)

/-- C4 (code evaluated at the failing input): at the reachable state after
reserve, cancel, reserve for the pair (event 0, user 5), reservation 2 is
CONFIRMED, yet BOTH cancel calls on id 2 fail with the
`@@unique([eventId, userId, status])` violation (the flip to CANCELED would
duplicate the pair's existing CANCELED row): zero transitions to CANCELED
happen and `availableSpots` is never incremented, against the claimed
one-transition-then-`AlreadyCanceled` behaviour. -/
theorem c4_double_cancel_constraint_bug :
    Reach dbRCR ∧
      (∃ r ∈ dbRCR.reservations, r.id = 2 ∧ r.status = ReservationStatus.CONFIRMED) ∧
      cancelReservationTx dbRCR 2 5 Role.USER = .error .UniqueConstraintViolation ∧
      (cancelReservationCtrl dbRCR 2 5 Role.USER true).1 = dbRCR ∧
      (cancelReservationCtrl ((cancelReservationCtrl dbRCR 2 5 Role.USER true).1)
          2 5 Role.USER true).1 = dbRCR :=
  ⟨reach_dbRCR, by decide, rfl, rfl, rfl⟩

/-- C8 (code evaluated at the failing input): the schema comment documents
only one-CONFIRMED-per-pair, but the constraint
`@@unique([eventId, userId, status])` also forbids a second CANCELED row per
pair: after reserve, cancel, reserve, the second cancel — which per the
claim should succeed and leave two CANCELED rows — fails with the
constraint violation, leaving exactly one CANCELED row. -/
theorem c8_second_cancel_constraint_bug :
    Reach dbRCR ∧
      (∃ r ∈ dbRCR.reservations, r.id = 1 ∧ r.eventId = 0 ∧ r.userId = 5 ∧
        r.status = ReservationStatus.CANCELED) ∧
      (∃ r ∈ dbRCR.reservations, r.id = 2 ∧ r.eventId = 0 ∧ r.userId = 5 ∧
        r.status = ReservationStatus.CONFIRMED) ∧
      cancelReservationTx dbRCR 2 5 Role.USER = .error .UniqueConstraintViolation ∧
      (dbRCR.reservations.countP fun r =>
        decide (r.status = ReservationStatus.CANCELED)) = 1 :=
  ⟨reach_dbRCR, by decide, by decide, rfl, by decide⟩

/-- C5: on an event with spots left and a future date, for a pair with no
prior reservation rows, the sequence reserve, cancel, reserve succeeds on
the third call with a fresh id, leaving exactly one CONFIRMED row and two
total rows for the pair. -/
theorem c5_reserve_cancel_reserve
    (db : DB) (eventId userId : Nat) (now : Int) (e : Event)
    (he : findEvent db eventId = some e) (hfut : ¬ e.eventDate < now)
    (hpos : 0 < e.availableSpots)
    (hpair : ∀ r ∈ db.reservations, ¬ (r.eventId = eventId ∧ r.userId = userId))
    (hidlt : ∀ r ∈ db.reservations, r.id < db.nextId) :
    ∃ db₁ r₁ db₂ r₁c db₃ r₂,
      createReservationTx db eventId userId now = .ok (db₁, r₁) ∧
      cancelReservationTx db₁ r₁.id userId Role.USER = .ok (db₂, r₁c) ∧
      createReservationTx db₂ eventId userId now = .ok (db₃, r₂) ∧
      ¬ r₂.id = r₁.id ∧
      db₃.reservations.countP (resMatches eventId userId ReservationStatus.CONFIRMED) = 1 ∧
      (db₃.reservations.countP fun r => r.eventId == eventId && r.userId == userId) = 2 := by
  obtain ⟨heMem, heId⟩ := findEvent_some he
  have he' : db.events.find? (fun x => x.id == eventId) = some e := he
  have hdec : ∀ x : Event,
      (if x.id == eventId then { x with availableSpots := x.availableSpots - 1 }
        else x).id = x.id := fun x => by split <;> rfl
  have hinc : ∀ x : Event,
      (if x.id == eventId then { x with availableSpots := x.availableSpots + 1 }
        else x).id = x.id := fun x => by split <;> rfl
  have hnone : findConfirmed db eventId userId = none :=
    List.find?_eq_none.mpr fun x hx => by
      simp only [resMatches, Bool.and_eq_true, beq_iff_eq, decide_eq_true_eq]
      rintro ⟨⟨h1, h2⟩, h3⟩
      exact hpair x hx ⟨h1, h2⟩
  have hnotriple : hasTriple db.reservations eventId userId ReservationStatus.CONFIRMED
      = false :=
    List.any_eq_false.mpr (List.find?_eq_none.mp hnone)
  have hzero1 : db.reservations.countP
      (resMatches eventId userId ReservationStatus.CONFIRMED) = 0 :=
    List.countP_eq_zero.mpr (List.find?_eq_none.mp hnone)
  have hzero2 : (db.reservations.countP fun r =>
      r.eventId == eventId && r.userId == userId) = 0 :=
    List.countP_eq_zero.mpr fun x hx => by
      simp only [Bool.and_eq_true, beq_iff_eq]
      rintro ⟨h1, h2⟩
      exact hpair x hx ⟨h1, h2⟩
  -- step 1: first reserve commits
  have htx1 : createReservationTx db eventId userId now
      = .ok (⟨db.events.map fun x =>
            if x.id == eventId then { x with availableSpots := x.availableSpots - 1 }
            else x,
          db.reservations
            ++ [⟨db.nextId, eventId, userId, ReservationStatus.CONFIRMED⟩],
          db.nextId + 1⟩,
        ⟨db.nextId, eventId, userId, ReservationStatus.CONFIRMED⟩) := by
    simp only [createReservationTx, he, hnone]
    rw [if_neg hfut, if_neg (by omega), if_neg (by simp [hnotriple])]
  -- step 2: the cancel of the fresh reservation commits
  have hrsnone : db.reservations.find? (fun r => r.id == db.nextId) = none :=
    List.find?_eq_none.mpr fun x hx => by
      simp only [beq_iff_eq]
      exact Nat.ne_of_lt (hidlt x hx)
  have hfind1 : findReservation ⟨db.events.map fun x =>
          if x.id == eventId then { x with availableSpots := x.availableSpots - 1 }
          else x,
        db.reservations
          ++ [⟨db.nextId, eventId, userId, ReservationStatus.CONFIRMED⟩],
        db.nextId + 1⟩ db.nextId
      = some ⟨db.nextId, eventId, userId, ReservationStatus.CONFIRMED⟩ := by
    simp only [findReservation, List.find?_append, hrsnone, Option.none_or]
    exact List.find?_cons_of_pos _ (by simp)
  have hconf : cancelConflict
      (db.reservations ++ [⟨db.nextId, eventId, userId, ReservationStatus.CONFIRMED⟩])
      db.nextId eventId userId = false :=
    List.any_eq_false.mpr fun x hx => by
      rcases List.mem_append.mp hx with hold | hnew
      · simp only [resMatches, Bool.and_eq_true, beq_iff_eq, decide_eq_true_eq,
          Bool.not_eq_true]
        rintro ⟨hne, ⟨h1, h2⟩, h3⟩
        exact hpair x hold ⟨h1, h2⟩
      · have : x = (⟨db.nextId, eventId, userId, ReservationStatus.CONFIRMED⟩ :
            Reservation) := by simpa using hnew
        subst this
        simp
  have hfev1 : findEvent ⟨db.events.map fun x =>
          if x.id == eventId then { x with availableSpots := x.availableSpots - 1 }
          else x,
        db.reservations
          ++ [⟨db.nextId, eventId, userId, ReservationStatus.CONFIRMED⟩],
        db.nextId + 1⟩ eventId
      = some { e with availableSpots := e.availableSpots - 1 } := by
    simp only [findEvent]
    rw [find?_key_map Event.id _ hdec eventId db.events, he']
    simp [heId]
  have hflip : List.map (fun x : Reservation =>
        if x.id == db.nextId then { x with status := ReservationStatus.CANCELED }
        else x)
        (db.reservations
          ++ [(⟨db.nextId, eventId, userId, ReservationStatus.CONFIRMED⟩ : Reservation)])
      = db.reservations
          ++ [(⟨db.nextId, eventId, userId, ReservationStatus.CANCELED⟩ : Reservation)] := by
    rw [List.map_append,
      map_keyed_id Reservation.id db.nextId
        (fun x => { x with status := ReservationStatus.CANCELED }) db.reservations
        (fun x hx => Nat.ne_of_lt (hidlt x hx))]
    simp
  have htx2 : cancelReservationTx ⟨db.events.map fun x =>
          if x.id == eventId then { x with availableSpots := x.availableSpots - 1 }
          else x,
        db.reservations
          ++ [⟨db.nextId, eventId, userId, ReservationStatus.CONFIRMED⟩],
        db.nextId + 1⟩ db.nextId userId Role.USER
      = .ok (⟨(db.events.map fun x =>
              if x.id == eventId then { x with availableSpots := x.availableSpots - 1 }
              else x).map fun x =>
              if x.id == eventId then { x with availableSpots := x.availableSpots + 1 }
              else x,
          db.reservations
            ++ [⟨db.nextId, eventId, userId, ReservationStatus.CANCELED⟩],
          db.nextId + 1⟩,
        ⟨db.nextId, eventId, userId, ReservationStatus.CANCELED⟩) := by
    simp only [cancelReservationTx, hfind1]
    rw [if_neg (by simp), if_neg (by simp), if_neg (by simp [hconf])]
    simp only [hfev1]
    rw [hflip]
  -- step 3: the second reserve commits with a fresh id
  have hfev2 : findEvent ⟨(db.events.map fun x =>
            if x.id == eventId then { x with availableSpots := x.availableSpots - 1 }
            else x).map fun x =>
            if x.id == eventId then { x with availableSpots := x.availableSpots + 1 }
            else x,
        db.reservations
          ++ [⟨db.nextId, eventId, userId, ReservationStatus.CANCELED⟩],
        db.nextId + 1⟩ eventId
      = some { e with availableSpots := e.availableSpots - 1 + 1 } := by
    simp only [findEvent]
    rw [find?_key_map Event.id _ hinc eventId]
    have hfev1' : (db.events.map fun x =>
        if x.id == eventId then { x with availableSpots := x.availableSpots - 1 }
        else x).find? (fun x => x.id == eventId)
        = some { e with availableSpots := e.availableSpots - 1 } := hfev1
    rw [hfev1']
    simp [heId]
  have hnone2 : findConfirmed ⟨(db.events.map fun x =>
            if x.id == eventId then { x with availableSpots := x.availableSpots - 1 }
            else x).map fun x =>
            if x.id == eventId then { x with availableSpots := x.availableSpots + 1 }
            else x,
        db.reservations
          ++ [⟨db.nextId, eventId, userId, ReservationStatus.CANCELED⟩],
        db.nextId + 1⟩ eventId userId = none := by
    simp only [findConfirmed, List.find?_append]
    rw [show db.reservations.find?
        (resMatches eventId userId ReservationStatus.CONFIRMED) = none from hnone]
    simp [resMatches]
  have hnotriple2 : hasTriple
      (db.reservations ++ [⟨db.nextId, eventId, userId, ReservationStatus.CANCELED⟩])
      eventId userId ReservationStatus.CONFIRMED = false := by
    simp only [hasTriple, List.any_append]
    rw [show db.reservations.any
        (resMatches eventId userId ReservationStatus.CONFIRMED) = false from hnotriple]
    simp [resMatches]
  have htx3 : createReservationTx ⟨(db.events.map fun x =>
            if x.id == eventId then { x with availableSpots := x.availableSpots - 1 }
            else x).map fun x =>
            if x.id == eventId then { x with availableSpots := x.availableSpots + 1 }
            else x,
        db.reservations
          ++ [⟨db.nextId, eventId, userId, ReservationStatus.CANCELED⟩],
        db.nextId + 1⟩ eventId userId now
      = .ok (⟨((db.events.map fun x =>
              if x.id == eventId then { x with availableSpots := x.availableSpots - 1 }
              else x).map fun x =>
              if x.id == eventId then { x with availableSpots := x.availableSpots + 1 }
              else x).map fun x =>
              if x.id == eventId then { x with availableSpots := x.availableSpots - 1 }
              else x,
          (db.reservations
            ++ [⟨db.nextId, eventId, userId, ReservationStatus.CANCELED⟩])
            ++ [⟨db.nextId + 1, eventId, userId, ReservationStatus.CONFIRMED⟩],
          db.nextId + 1 + 1⟩,
        ⟨db.nextId + 1, eventId, userId, ReservationStatus.CONFIRMED⟩) := by
    simp only [createReservationTx, hfev2, hnone2]
    rw [if_neg (by simpa using hfut),
      if_neg (show ¬ e.availableSpots - 1 + 1 ≤ 0 by omega),
      if_neg (by simp [hnotriple2])]
  refine ⟨_, _, _, _, _, _, htx1, htx2, htx3, by simp, ?_, ?_⟩
  · simp only [List.countP_append, List.countP_cons, List.countP_nil, hzero1]
    simp [resMatches]
  · simp only [List.countP_append, List.countP_cons, List.countP_nil, hzero2]
    simp

/-- C5 witness: the round trip instantiated at the fresh capacity-2 event
for the pair (event 0, user 5). -/
theorem c5_reserve_cancel_reserve_witness :
    ∃ db₁ r₁ db₂ r₁c db₃ r₂,
      createReservationTx dbCap2 0 5 0 = .ok (db₁, r₁) ∧
      cancelReservationTx db₁ r₁.id 5 Role.USER = .ok (db₂, r₁c) ∧
      createReservationTx db₂ 0 5 0 = .ok (db₃, r₂) ∧
      ¬ r₂.id = r₁.id ∧
      db₃.reservations.countP (resMatches 0 5 ReservationStatus.CONFIRMED) = 1 ∧
      (db₃.reservations.countP fun r => r.eventId == 0 && r.userId == 5) = 2 :=
  c5_reserve_cancel_reserve dbCap2 0 5 0
    ⟨0, "show", none, 100, some "hall", none, 2, 2, 9⟩
    rfl (by decide) (by decide) (by decide) (by decide)

end Mvp
